import Mathlib

/-!
Verification of the Lifespan Inflation calculator's projection engine.

The repository is a small React application; its reproducible logic is a
pure projection: from an inflation rate `i`, an asset growth rate `a`, a
horizon `T`, a base annual expense `E0` and a starting portfolio `P0`, it
builds a year-indexed series of ratios, nominal expenses, portfolio
balances and cumulative totals.  We embed that computation over `ℚ`,
mirroring the loop of `src/src/App.tsx` (the USD/BTC portfolio variant)
and the cumulative-cost variant with its BTC price override.
-/

namespace LifespanInflation

/-- One point of the projection series (`YearPoint` in `src/src/App.tsx`). -/
structure YearPoint where
  year : ℕ
  ratio : ℚ
  E_nom_usd : ℚ
  P_usd : ℚ
  E_btc : ℚ
  P_btc : ℚ
  deriving Repr, DecidableEq

/-- The mutable state threaded through the projection loop of
`src/src/App.tsx` (lines 78–115): the accumulated points, the running
expense totals, the running portfolio balance and the recorded
depletion year. -/
structure ProjState where
  points : List YearPoint
  runningUsdExpensesTotal : ℚ
  runningBtcExpensesTotal : ℚ
  portfolioUsd : ℚ
  depletion : Option ℕ
  deriving Repr, DecidableEq

/-- `ratioBase = (1 + i) / (1 + a)` (line 75 of `src/src/App.tsx`). -/
def ratioBase (i a : ℚ) : ℚ := (1 + i) / (1 + a)

/-- Body of the projection loop for iteration `k`
(lines 84–115 of `src/src/App.tsx`). -/
def projStep (i a E0 : ℚ) (s : ProjState) (k : ℕ) : ProjState :=
  let ratio := ratioBase i a ^ k
  let btcUsdIndex := (1 + a) ^ k
  let nominalExpenseUsd := E0 * (1 + i) ^ k
  let runningUsdExpensesTotal :=
    if 0 < k then s.runningUsdExpensesTotal + nominalExpenseUsd
    else s.runningUsdExpensesTotal
  let portfolioUsd :=
    if 0 < k then s.portfolioUsd * (1 + a) - nominalExpenseUsd
    else s.portfolioUsd
  let depletion :=
    if 0 < k then
      if s.depletion = none ∧ portfolioUsd ≤ 0 then some k else s.depletion
    else s.depletion
  let expenseBtc := nominalExpenseUsd / btcUsdIndex
  let portfolioBtc := portfolioUsd / btcUsdIndex
  let runningBtcExpensesTotal :=
    if 0 < k then s.runningBtcExpensesTotal + expenseBtc
    else s.runningBtcExpensesTotal
  { points := s.points ++
      [{ year := k, ratio := ratio, E_nom_usd := nominalExpenseUsd,
         P_usd := portfolioUsd, E_btc := expenseBtc, P_btc := portfolioBtc }]
    runningUsdExpensesTotal := runningUsdExpensesTotal
    runningBtcExpensesTotal := runningBtcExpensesTotal
    portfolioUsd := portfolioUsd
    depletion := depletion }

/-- The loop state before the first iteration (lines 78–82). -/
def initState (P0 : ℚ) : ProjState :=
  { points := [], runningUsdExpensesTotal := 0, runningBtcExpensesTotal := 0,
    portfolioUsd := P0, depletion := none }

/-- The summary object returned by the `useMemo` computation
(lines 125–139 of `src/src/App.tsx`). -/
structure Summary where
  series : List YearPoint
  lifespanInflationFactor : ℚ
  lifespanInflationPercent : ℚ
  finalRatio : ℚ
  finalAnnualExpenseUsd : ℚ
  finalAnnualExpenseBtc : ℚ
  totalExpensesUsd : ℚ
  totalExpensesBtc : ℚ
  avgAnnualExpenseUsd : ℚ
  avgAnnualExpenseBtc : ℚ
  finalPortfolioUsd : ℚ
  finalPortfolioBtc : ℚ
  depletionYear : Option ℕ
  deriving Repr, DecidableEq

/-- The whole projection computation of `src/src/App.tsx` (lines 71–139):
run the loop for `k = 0..T` and package the summary, including the
fallback final point and the division-guarded averages. -/
def projection (i a E0 P0 : ℚ) (T : ℕ) : Summary :=
  let lif := ratioBase i a ^ T - 1
  let s := (List.range (T + 1)).foldl (projStep i a E0) (initState P0)
  let finalPoint := (s.points.getLast?).getD
    { year := 0, ratio := 1, E_nom_usd := E0, P_usd := P0, E_btc := E0, P_btc := P0 }
  { series := s.points
    lifespanInflationFactor := lif
    lifespanInflationPercent := lif * 100
    finalRatio := finalPoint.ratio
    finalAnnualExpenseUsd := finalPoint.E_nom_usd
    finalAnnualExpenseBtc := finalPoint.E_btc
    totalExpensesUsd := s.runningUsdExpensesTotal
    totalExpensesBtc := s.runningBtcExpensesTotal
    avgAnnualExpenseUsd := if 0 < T then s.runningUsdExpensesTotal / (T : ℚ) else 0
    avgAnnualExpenseBtc := if 0 < T then s.runningBtcExpensesTotal / (T : ℚ) else 0
    finalPortfolioUsd := finalPoint.P_usd
    finalPortfolioBtc := finalPoint.P_btc
    depletionYear := s.depletion }

/-- Closed form of the running portfolio balance:
`balance 0 = P0`, `balance (k+1) = balance k * (1+a) - E0*(1+i)^(k+1)`. -/
def balance (i a E0 P0 : ℚ) : ℕ → ℚ
  | 0 => P0
  | k + 1 => balance i a E0 P0 k * (1 + a) - E0 * (1 + i) ^ (k + 1)

/-- Closed form of the depletion marker after `n` loop iterations: the
first index `k` with `0 < k` and `balance k ≤ 0` among the processed
iterations `k < n`, if any. -/
def depAux (i a E0 P0 : ℚ) : ℕ → Option ℕ
  | 0 => none
  | n + 1 =>
    match depAux i a E0 P0 n with
    | some d => some d
    | none => if 0 < n ∧ balance i a E0 P0 n ≤ 0 then some n else none

/-- Closed form of the series point pushed at iteration `k`. -/
def pointAt (i a E0 P0 : ℚ) (k : ℕ) : YearPoint :=
  { year := k
    ratio := ratioBase i a ^ k
    E_nom_usd := E0 * (1 + i) ^ k
    P_usd := balance i a E0 P0 k
    E_btc := E0 * (1 + i) ^ k / (1 + a) ^ k
    P_btc := balance i a E0 P0 k / (1 + a) ^ k }

/-- Closed form of the loop state after `n` iterations. -/
def runState (i a E0 P0 : ℚ) (n : ℕ) : ProjState :=
  { points := (List.range n).map (pointAt i a E0 P0)
    runningUsdExpensesTotal :=
      ∑ k ∈ Finset.range n, if k = 0 then 0 else E0 * (1 + i) ^ k
    runningBtcExpensesTotal :=
      ∑ k ∈ Finset.range n, if k = 0 then 0 else E0 * (1 + i) ^ k / (1 + a) ^ k
    portfolioUsd := balance i a E0 P0 (n - 1)
    depletion := depAux i a E0 P0 n }

theorem balance_zero (i a E0 P0 : ℚ) : balance i a E0 P0 0 = P0 := rfl

theorem balance_succ (i a E0 P0 : ℚ) (k : ℕ) :
    balance i a E0 P0 (k + 1) =
      balance i a E0 P0 k * (1 + a) - E0 * (1 + i) ^ (k + 1) := rfl

/-- The portfolio update of iteration `n` sends the stored balance to
`balance n`. -/
theorem portfolio_update (i a E0 P0 : ℚ) (n : ℕ) :
    (if 0 < n then balance i a E0 P0 (n - 1) * (1 + a) - E0 * (1 + i) ^ n
     else balance i a E0 P0 (n - 1)) = balance i a E0 P0 n := by
  cases n with
  | zero => simp
  | succ m => simp [balance_succ]

/-- One step of the loop takes the closed-form state at `n` to the
closed-form state at `n + 1`. -/
theorem runState_succ (i a E0 P0 : ℚ) (n : ℕ) :
    projStep i a E0 (runState i a E0 P0 n) n = runState i a E0 P0 (n + 1) := by
  have hport := portfolio_update i a E0 P0 n
  unfold projStep runState
  simp only [ProjState.mk.injEq]
  refine ⟨?_, ?_, ?_, ?_, ?_⟩
  · -- points
    rw [List.range_succ, List.map_append]
    simp only [List.map_cons, List.map_nil, List.append_cancel_left_eq]
    simp only [List.cons.injEq, and_true]
    rw [hport]
    rfl
  · -- USD total
    rw [Finset.sum_range_succ]
    cases n with
    | zero => simp
    | succ m => simp
  · -- BTC total
    rw [Finset.sum_range_succ]
    cases n with
    | zero => simp
    | succ m => simp
  · -- portfolio
    rw [hport]
    simp
  · -- depletion
    rw [hport]
    cases n with
    | zero => simp [depAux]
    | succ m =>
      have hs : depAux i a E0 P0 (m + 1 + 1) =
          match depAux i a E0 P0 (m + 1) with
          | some d => some d
          | none =>
            if 0 < m + 1 ∧ balance i a E0 P0 (m + 1) ≤ 0 then some (m + 1)
            else none := rfl
      rw [hs]
      cases hdep : depAux i a E0 P0 (m + 1) with
      | none => simp
      | some d => simp

/-- Loop invariant: folding the step over `0..n-1` yields the closed-form
state. -/
theorem foldl_eq_runState (i a E0 P0 : ℚ) (n : ℕ) :
    (List.range n).foldl (projStep i a E0) (initState P0) =
      runState i a E0 P0 n := by
  induction n with
  | zero =>
    simp [runState, initState, depAux, balance]
  | succ m ih =>
    rw [List.range_succ, List.foldl_append, ih]
    simp only [List.foldl_cons, List.foldl_nil]
    exact runState_succ i a E0 P0 m

/-- The series produced by the projection is the pointwise closed form. -/
theorem projection_series (i a E0 P0 : ℚ) (T : ℕ) :
    (projection i a E0 P0 T).series =
      (List.range (T + 1)).map (pointAt i a E0 P0) := by
  unfold projection
  rw [foldl_eq_runState]
  rfl

/-- Looking up index `k ≤ T` in the series gives the closed-form point. -/
theorem series_getElem (i a E0 P0 : ℚ) (T k : ℕ) (hk : k ≤ T) :
    (projection i a E0 P0 T).series[k]? = some (pointAt i a E0 P0 k) := by
  rw [projection_series]
  rw [List.getElem?_map]
  rw [List.getElem?_range (by omega : k < T + 1)]
  rfl

/-- The recorded depletion year of the projection is the closed-form
marker over iterations `0..T`. -/
theorem projection_depletionYear (i a E0 P0 : ℚ) (T : ℕ) :
    (projection i a E0 P0 T).depletionYear = depAux i a E0 P0 (T + 1) := by
  unfold projection
  rw [foldl_eq_runState]
  rfl

/-- The USD expense total of the projection, as a guarded sum over
`0..T`. -/
theorem projection_totalUsd (i a E0 P0 : ℚ) (T : ℕ) :
    (projection i a E0 P0 T).totalExpensesUsd =
      ∑ k ∈ Finset.range (T + 1), if k = 0 then 0 else E0 * (1 + i) ^ k := by
  unfold projection
  rw [foldl_eq_runState]
  rfl

/-- The BTC expense total of the projection, as a guarded sum over
`0..T`. -/
theorem projection_totalBtc (i a E0 P0 : ℚ) (T : ℕ) :
    (projection i a E0 P0 T).totalExpensesBtc =
      ∑ k ∈ Finset.range (T + 1),
        if k = 0 then 0 else E0 * (1 + i) ^ k / (1 + a) ^ k := by
  unfold projection
  rw [foldl_eq_runState]
  rfl

/-- The final point picked by the projection is the closed-form point at
`T` (the fallback branch of `points[points.length - 1] ?? …` is dead). -/
theorem projection_getLast (i a E0 P0 : ℚ) (T : ℕ) :
    ((projection i a E0 P0 T).series).getLast? = some (pointAt i a E0 P0 T) := by
  rw [projection_series, List.range_succ, List.map_append]
  exact List.getLast?_concat _

theorem projection_finalAnnualExpenseUsd (i a E0 P0 : ℚ) (T : ℕ) :
    (projection i a E0 P0 T).finalAnnualExpenseUsd = E0 * (1 + i) ^ T := by
  unfold projection
  rw [foldl_eq_runState]
  show ((runState i a E0 P0 (T + 1)).points.getLast?.getD _).E_nom_usd = _
  have h : (runState i a E0 P0 (T + 1)).points.getLast? =
      some (pointAt i a E0 P0 T) := by
    show ((List.range (T + 1)).map (pointAt i a E0 P0)).getLast? = _
    rw [List.range_succ, List.map_append]
    exact List.getLast?_concat _
  rw [h]
  rfl

theorem projection_lif (i a E0 P0 : ℚ) (T : ℕ) :
    (projection i a E0 P0 T).lifespanInflationFactor = ratioBase i a ^ T - 1 :=
  rfl

/-- A guarded sum over `0..n` equals the plain sum over `1..n`. -/
theorem sum_range_guard (f : ℕ → ℚ) (n : ℕ) :
    (∑ k ∈ Finset.range (n + 1), if k = 0 then 0 else f k) =
      ∑ k ∈ Finset.Icc 1 n, f k := by
  induction n with
  | zero => simp
  | succ m ih =>
    rw [Finset.sum_range_succ, ih, Finset.sum_Icc_succ_top (by omega)]
    simp

/-- The depletion marker is empty exactly when every processed balance
stays positive. -/
theorem depAux_eq_none_iff (i a E0 P0 : ℚ) (n : ℕ) :
    depAux i a E0 P0 n = none ↔
      ∀ k, 1 ≤ k → k < n → 0 < balance i a E0 P0 k := by
  induction n with
  | zero => simp [depAux]
  | succ m ih =>
    constructor
    · intro h k hk1 hk2
      have hs : depAux i a E0 P0 (m + 1) =
          match depAux i a E0 P0 m with
          | some d => some d
          | none =>
            if 0 < m ∧ balance i a E0 P0 m ≤ 0 then some m else none := rfl
      rw [hs] at h
      cases hdep : depAux i a E0 P0 m with
      | some d => rw [hdep] at h; exact absurd h (by simp)
      | none =>
        rw [hdep] at h
        have hprev := ih.mp hdep
        rcases Nat.lt_succ_iff_lt_or_eq.mp hk2 with hcase | hcase
        · exact hprev k hk1 hcase
        · subst hcase
          by_contra hpos
          push_neg at hpos
          have : (0 < k ∧ balance i a E0 P0 k ≤ 0) := ⟨hk1, hpos⟩
          rw [if_pos this] at h
          exact absurd h (by simp)
    · intro h
      have hs : depAux i a E0 P0 (m + 1) =
          match depAux i a E0 P0 m with
          | some d => some d
          | none =>
            if 0 < m ∧ balance i a E0 P0 m ≤ 0 then some m else none := rfl
      have hprev : depAux i a E0 P0 m = none :=
        ih.mpr (fun k hk1 hk2 => h k hk1 (by omega))
      rw [hs, hprev]
      by_cases hm : 0 < m ∧ balance i a E0 P0 m ≤ 0
      · exact absurd (h m hm.1 (by omega)) (not_lt.mpr hm.2)
      · rw [if_neg hm]

/-- When the depletion marker is set, it names the first processed index
whose balance is non-positive. -/
theorem depAux_eq_some (i a E0 P0 : ℚ) (n d : ℕ)
    (h : depAux i a E0 P0 n = some d) :
    1 ≤ d ∧ d < n ∧ balance i a E0 P0 d ≤ 0 ∧
      ∀ k, 1 ≤ k → k < d → 0 < balance i a E0 P0 k := by
  induction n with
  | zero => exact absurd h (by simp [depAux])
  | succ m ih =>
    have hs : depAux i a E0 P0 (m + 1) =
        match depAux i a E0 P0 m with
        | some d => some d
        | none =>
          if 0 < m ∧ balance i a E0 P0 m ≤ 0 then some m else none := rfl
    rw [hs] at h
    cases hdep : depAux i a E0 P0 m with
    | some e =>
      rw [hdep] at h
      have : e = d := by simpa using h
      subst this
      obtain ⟨h1, h2, h3, h4⟩ := ih hdep
      exact ⟨h1, by omega, h3, h4⟩
    | none =>
      rw [hdep] at h
      by_cases hm : 0 < m ∧ balance i a E0 P0 m ≤ 0
      · rw [if_pos hm] at h
        have : m = d := by simpa using h
        subst this
        exact ⟨hm.1, by omega, hm.2,
          fun k hk1 hk2 => (depAux_eq_none_iff i a E0 P0 m).mp hdep k hk1 hk2⟩
      · rw [if_neg hm] at h
        exact absurd h (by simp)

/-- C1: for every inflation rate `i`, growth rate `a ≠ -1` and horizon
`T`, the Lifespan Inflation Factor returned by the projection equals
`((1+i)/(1+a))^T - 1`, and it equals `ratio(T) - 1` where `ratio(T)` is
the `ratio` field of the series point at index `T`. -/
theorem C1_lif_closed_form (i a E0 P0 : ℚ) (T : ℕ) (_ha : a ≠ -1) :
    (projection i a E0 P0 T).lifespanInflationFactor =
        ((1 + i) / (1 + a)) ^ T - 1 ∧
    ∃ pt : YearPoint,
      (projection i a E0 P0 T).series[T]? = some pt ∧
      (projection i a E0 P0 T).lifespanInflationFactor = pt.ratio - 1 := by
  refine ⟨rfl, pointAt i a E0 P0 T, series_getElem i a E0 P0 T T le_rfl, ?_⟩
  rfl

/-- Witness for C1 at `i = 3/100`, `a = 7/100`, `T = 2`. -/
theorem C1_lif_closed_form_witness :
    ((7 : ℚ)/100 ≠ -1) ∧
    ((projection (3/100) (7/100) 60000 1000000 2).lifespanInflationFactor =
        ((1 + 3/100) / (1 + 7/100)) ^ 2 - 1 ∧
      ∃ pt : YearPoint,
        (projection (3/100) (7/100) 60000 1000000 2).series[2]? = some pt ∧
        (projection (3/100) (7/100) 60000 1000000 2).lifespanInflationFactor =
          pt.ratio - 1) :=
  ⟨by norm_num, C1_lif_closed_form (3/100) (7/100) 60000 1000000 2 (by norm_num)⟩

/-- C2: for every horizon `T` the series has exactly `T+1` points, the
period indices are exactly `0, 1, …, T` in that (strictly increasing)
order, the first point's ratio is `1`, and its nominal expense is `E0`. -/
theorem C2_series_shape (i a E0 P0 : ℚ) (T : ℕ) :
    (projection i a E0 P0 T).series.length = T + 1 ∧
    (projection i a E0 P0 T).series.map YearPoint.year = List.range (T + 1) ∧
    ∃ pt : YearPoint,
      (projection i a E0 P0 T).series[0]? = some pt ∧
      pt.ratio = 1 ∧ pt.E_nom_usd = E0 := by
  refine ⟨?_, ?_, pointAt i a E0 P0 0, series_getElem i a E0 P0 T 0 (by omega), ?_, ?_⟩
  · rw [projection_series, List.length_map, List.length_range]
  · rw [projection_series, List.map_map]
    have : (YearPoint.year ∘ pointAt i a E0 P0) = id := by
      funext k
      rfl
    rw [this, List.map_id]
  · show ratioBase i a ^ 0 = 1
    exact pow_zero _
  · show E0 * (1 + i) ^ 0 = E0
    rw [pow_zero, mul_one]

/-- C3: for `1 ≤ k ≤ T` the running balance stored in the series obeys
`balance(k) = balance(k-1)*(1+a) - nominalExpense(k)`, the balance at
period 0 is `P0`, and `nominalExpense(k) = E0*(1+i)^k`. -/
theorem C3_balance_recurrence (i a E0 P0 : ℚ) (T k : ℕ)
    (hk1 : 1 ≤ k) (hk2 : k ≤ T) :
    ∃ prev cur : YearPoint,
      (projection i a E0 P0 T).series[k - 1]? = some prev ∧
      (projection i a E0 P0 T).series[k]? = some cur ∧
      cur.P_usd = prev.P_usd * (1 + a) - cur.E_nom_usd ∧
      cur.E_nom_usd = E0 * (1 + i) ^ k ∧
      ∃ first : YearPoint,
        (projection i a E0 P0 T).series[0]? = some first ∧ first.P_usd = P0 := by
  refine ⟨pointAt i a E0 P0 (k - 1), pointAt i a E0 P0 k,
    series_getElem i a E0 P0 T (k - 1) (by omega),
    series_getElem i a E0 P0 T k hk2, ?_, rfl,
    pointAt i a E0 P0 0, series_getElem i a E0 P0 T 0 (by omega), rfl⟩
  show balance i a E0 P0 k = balance i a E0 P0 (k - 1) * (1 + a) - E0 * (1 + i) ^ k
  obtain ⟨m, rfl⟩ : ∃ m, k = m + 1 := ⟨k - 1, by omega⟩
  simp [balance_succ]

/-- Witness for C3 at `i = a = 0`, `E0 = 50`, `P0 = 100`, `T = 2`,
`k = 1`. -/
theorem C3_balance_recurrence_witness :
    (1 ≤ 1 ∧ 1 ≤ 2) ∧
    ∃ prev cur : YearPoint,
      (projection 0 0 50 100 2).series[1 - 1]? = some prev ∧
      (projection 0 0 50 100 2).series[1]? = some cur ∧
      cur.P_usd = prev.P_usd * (1 + 0) - cur.E_nom_usd ∧
      cur.E_nom_usd = 50 * (1 + 0) ^ 1 ∧
      ∃ first : YearPoint,
        (projection 0 0 50 100 2).series[0]? = some first ∧ first.P_usd = 100 :=
  ⟨⟨le_rfl, by omega⟩, C3_balance_recurrence 0 0 50 100 2 1 le_rfl (by omega)⟩

/-- C4: the reported depletion year, when present, is the smallest
`k ∈ 1..T` whose balance is `≤ 0` (so it is recorded once and never
overwritten), it is `none` exactly when the balance stays positive on
`1..T`, and on the concrete inputs `P0 = 100`, `E0 = 50`, `a = i = 0`,
`T = 2` the balances are `100, 50, 0` and the depletion year is `2`. -/
theorem C4_depletion_first (i a E0 P0 : ℚ) (T : ℕ) :
    ((∀ d, (projection i a E0 P0 T).depletionYear = some d →
        1 ≤ d ∧ d ≤ T ∧ balance i a E0 P0 d ≤ 0 ∧
          ∀ k, 1 ≤ k → k < d → 0 < balance i a E0 P0 k) ∧
      ((projection i a E0 P0 T).depletionYear = none ↔
        ∀ k, 1 ≤ k → k ≤ T → 0 < balance i a E0 P0 k)) ∧
    ((projection 0 0 50 100 2).depletionYear = some 2 ∧
      balance 0 0 50 100 0 = 100 ∧ balance 0 0 50 100 1 = 50 ∧
      balance 0 0 50 100 2 = 0) := by
  constructor
  · constructor
    · intro d hd
      rw [projection_depletionYear] at hd
      obtain ⟨h1, h2, h3, h4⟩ := depAux_eq_some i a E0 P0 (T + 1) d hd
      exact ⟨h1, by omega, h3, h4⟩
    · rw [projection_depletionYear, depAux_eq_none_iff]
      constructor
      · intro h k hk1 hk2
        exact h k hk1 (by omega)
      · intro h k hk1 hk2
        exact h k hk1 (by omega)
  · refine ⟨?_, by norm_num [balance], by norm_num [balance], by norm_num [balance]⟩
    rw [projection_depletionYear]
    have h1 : balance 0 0 50 100 1 = 50 := by norm_num [balance]
    have h2 : balance 0 0 50 100 2 = 0 := by norm_num [balance]
    simp [depAux, h1, h2]
    norm_num

/-- The per-period ratio `ratio(k) = ((1+i)/(1+a))^k` computed by the
loop (line 85 of `src/src/App.tsx`). -/
def ratio (i a : ℚ) (k : ℕ) : ℚ := ratioBase i a ^ k

/-- The `ratio` field of every series point is the `ratio` function. -/
theorem series_ratio (i a E0 P0 : ℚ) (T k : ℕ) (hk : k ≤ T) :
    ∃ pt : YearPoint,
      (projection i a E0 P0 T).series[k]? = some pt ∧ pt.ratio = ratio i a k :=
  ⟨pointAt i a E0 P0 k, series_getElem i a E0 P0 T k hk, rfl⟩

/-- Counterexample to C5 as stated: the monotonicity trichotomy is
claimed for every `i` and `a`, but at `i = 0 > a = -2` the ratio values
alternate in sign (`ratio 0 = 1`, `ratio 1 = -1`), so `ratio` is not
strictly increasing even though `i > a`. -/
theorem C5_counterexample :
    (-2 : ℚ) < 0 ∧ ratio 0 (-2) 1 < ratio 0 (-2) 0 := by
  constructor
  · norm_num
  · show ratioBase 0 (-2) ^ 1 < ratioBase 0 (-2) ^ 0
    rw [pow_one, pow_zero]
    unfold ratioBase
    norm_num

/-- C5 (amended): for rates `i, a > -1` — the regime the UI guarantees,
`a ≥ -10%` and `i ≥ 0` — the ratio values are strictly increasing in `k`
when `i > a`, strictly decreasing when `i < a`, and constantly `1` when
`i = a`. -/
theorem C5_ratio_monotone (i a : ℚ) (hi : -1 < i) (ha : -1 < a) :
    (a < i → ∀ k l : ℕ, k < l → ratio i a k < ratio i a l) ∧
    (i < a → ∀ k l : ℕ, k < l → ratio i a l < ratio i a k) ∧
    (i = a → ∀ k : ℕ, ratio i a k = 1) := by
  have hia : (0 : ℚ) < 1 + i := by linarith
  have haa : (0 : ℚ) < 1 + a := by linarith
  refine ⟨?_, ?_, ?_⟩
  · intro hlt k l hkl
    have hbase : 1 < ratioBase i a := by
      unfold ratioBase
      rw [one_lt_div haa]
      linarith
    exact pow_lt_pow_right₀ hbase hkl
  · intro hlt k l hkl
    have hpos : 0 < ratioBase i a := div_pos hia haa
    have hbase : ratioBase i a < 1 := by
      unfold ratioBase
      rw [div_lt_one haa]
      linarith
    exact pow_lt_pow_right_of_lt_one₀ hpos hbase hkl
  · intro heq k
    subst heq
    unfold ratio ratioBase
    rw [div_self (by linarith)]
    exact one_pow k

/-- Witness for the amended C5 at `i = 7/100`, `a = 3/100`. -/
theorem C5_ratio_monotone_witness :
    ((-1 : ℚ) < 7/100 ∧ (-1 : ℚ) < 3/100 ∧ (3 : ℚ)/100 < 7/100) ∧
    ratio (7/100) (3/100) 0 < ratio (7/100) (3/100) 1 :=
  ⟨⟨by norm_num, by norm_num, by norm_num⟩,
    (C5_ratio_monotone (7/100) (3/100) (by norm_num) (by norm_num)).1
      (by norm_num) 0 1 (by omega)⟩

/-- C6: the running totals accumulate only over `k ∈ [1, T]` — the USD
total is `∑_{k=1}^{T} E0·(1+i)^k`, the asset-denominated total is
`∑_{k=1}^{T} E0·(1+i)^k/(1+a)^k`, and at `T = 0` both totals are `0`. -/
theorem C6_totals_over_one_to_T (i a E0 P0 : ℚ) (T : ℕ) :
    (projection i a E0 P0 T).totalExpensesUsd =
        (∑ k ∈ Finset.Icc 1 T, E0 * (1 + i) ^ k) ∧
    (projection i a E0 P0 T).totalExpensesBtc =
        (∑ k ∈ Finset.Icc 1 T, E0 * (1 + i) ^ k / (1 + a) ^ k) ∧
    (projection i a E0 P0 0).totalExpensesUsd = 0 ∧
    (projection i a E0 P0 0).totalExpensesBtc = 0 := by
  refine ⟨?_, ?_, ?_, ?_⟩
  · rw [projection_totalUsd, sum_range_guard]
  · rw [projection_totalBtc, sum_range_guard]
  · rw [projection_totalUsd, sum_range_guard]
    simp
  · rw [projection_totalBtc, sum_range_guard]
    simp

theorem projection_avgUsd (i a E0 P0 : ℚ) (T : ℕ) :
    (projection i a E0 P0 T).avgAnnualExpenseUsd =
      if 0 < T then (projection i a E0 P0 T).totalExpensesUsd / (T : ℚ) else 0 :=
  rfl

theorem projection_avgBtc (i a E0 P0 : ℚ) (T : ℕ) :
    (projection i a E0 P0 T).avgAnnualExpenseBtc =
      if 0 < T then (projection i a E0 P0 T).totalExpensesBtc / (T : ℚ) else 0 :=
  rfl

/-- C7: the averages equal total divided by `T` when `T > 0` and are `0`
when `T = 0`, so the `T = 0` division is guarded. -/
theorem C7_average_guard (i a E0 P0 : ℚ) (T : ℕ) :
    (0 < T →
      (projection i a E0 P0 T).avgAnnualExpenseUsd =
          (projection i a E0 P0 T).totalExpensesUsd / (T : ℚ) ∧
      (projection i a E0 P0 T).avgAnnualExpenseBtc =
          (projection i a E0 P0 T).totalExpensesBtc / (T : ℚ)) ∧
    ((projection i a E0 P0 0).avgAnnualExpenseUsd = 0 ∧
      (projection i a E0 P0 0).avgAnnualExpenseBtc = 0) := by
  refine ⟨fun hT => ⟨?_, ?_⟩, ?_, ?_⟩
  · rw [projection_avgUsd, if_pos hT]
  · rw [projection_avgBtc, if_pos hT]
  · rw [projection_avgUsd]
    rfl
  · rw [projection_avgBtc]
    rfl

theorem ratioBase_example : ratioBase (3/100) (7/100) = 103/107 := by
  unfold ratioBase
  norm_num

/-- Counterexample to C8 as stated: at `i = 0.03`, `a = 0.07`, `T = 10`,
`E0 = 60000` the Lifespan Inflation Factor is not `≈ -0.322` (it differs
from `-0.322` by more than `1/250 = 0.004`, far beyond the three-decimal
precision of the claim), and the final nominal expense is not
`≈ 80635.33` (it differs by more than `1/4`). -/
theorem C8_counterexample :
    1/250 <
      |(projection (3/100) (7/100) 60000 1000000 10).lifespanInflationFactor -
        (-(322/1000))| ∧
    1/4 <
      |(projection (3/100) (7/100) 60000 1000000 10).finalAnnualExpenseUsd -
        8063533/100| := by
  rw [projection_lif, projection_finalAnnualExpenseUsd, ratioBase_example]
  constructor
  · rw [abs_of_pos (by norm_num)]
    norm_num
  · rw [abs_of_neg (by norm_num)]
    norm_num

/-- C8 (amended): at `i = 0.03`, `a = 0.07`, `T = 10`, `E0 = 60000` the
projection yields `ratioBase = 103/107 ≈ 0.9626`, a Lifespan Inflation
Factor of `(103/107)^10 - 1 ≈ -0.3168` (about `-32%`), and a final
nominal expense of exactly `60000·1.03^10 ≈ 80634.98`. -/
theorem C8_example_values :
    ratioBase (3/100) (7/100) = 103/107 ∧
    |ratioBase (3/100) (7/100) - 9626/10000| < 1/10000 ∧
    (projection (3/100) (7/100) 60000 1000000 10).lifespanInflationFactor =
        (103/107) ^ 10 - 1 ∧
    |(projection (3/100) (7/100) 60000 1000000 10).lifespanInflationFactor +
        3168/10000| < 1/10000 ∧
    (projection (3/100) (7/100) 60000 1000000 10).finalAnnualExpenseUsd =
        60000 * (103/100) ^ 10 ∧
    |(projection (3/100) (7/100) 60000 1000000 10).finalAnnualExpenseUsd -
        8063498/100| < 1/100 := by
  rw [projection_lif, projection_finalAnnualExpenseUsd, ratioBase_example]
  refine ⟨rfl, ?_, by norm_num, ?_, by norm_num, ?_⟩
  · rw [abs_lt]
    constructor
    · norm_num
    · norm_num
  · rw [abs_lt]
    constructor
    · norm_num
    · norm_num
  · rw [abs_lt]
    constructor
    · norm_num
    · norm_num

/-- The result of parsing the BTC price override input
(`Number(btcPriceInput)` in the cumulative-cost variant): either a
non-finite value (`NaN`/`Infinity`) or a finite number. -/
inductive ParsedNumber where
  | nonFinite : ParsedNumber
  | finite : ℚ → ParsedNumber
  deriving Repr, DecidableEq

/-- `effectiveBtcPrice` (lines 330–336 of the cumulative-cost variant):
if the parsed override is non-finite or non-positive, fall back to the
last fetched price; otherwise use the parsed value.  The function is
total: no exception propagates. -/
def effectiveBtcPrice (parsed : ParsedNumber) (fetchedBtcPrice : ℚ) : ℚ :=
  match parsed with
  | ParsedNumber.nonFinite => fetchedBtcPrice
  | ParsedNumber.finite q => if q ≤ 0 then fetchedBtcPrice else q

/-- C9: a non-finite or non-positive parsed override falls back to the
last known good (fetched) price, and a positive finite override is used
as given. -/
theorem C9_override_fallback (p : ParsedNumber) (fetched : ℚ) :
    (p = ParsedNumber.nonFinite → effectiveBtcPrice p fetched = fetched) ∧
    (∀ q, p = ParsedNumber.finite q → q ≤ 0 →
      effectiveBtcPrice p fetched = fetched) ∧
    (∀ q, p = ParsedNumber.finite q → 0 < q →
      effectiveBtcPrice p fetched = q) := by
  refine ⟨?_, ?_, ?_⟩
  · intro h
    subst h
    rfl
  · intro q hq hle
    subst hq
    exact if_pos hle
  · intro q hq hpos
    subst hq
    exact if_neg (not_le.mpr hpos)

/-- Witness for C9: a zero override falls back, a positive override is
kept. -/
theorem C9_override_fallback_witness :
    (ParsedNumber.finite 0 = ParsedNumber.finite 0 ∧ (0 : ℚ) ≤ 0 ∧
      effectiveBtcPrice (ParsedNumber.finite 0) 60000 = 60000) ∧
    ((0 : ℚ) < 45000 ∧
      effectiveBtcPrice (ParsedNumber.finite 45000) 60000 = 45000) :=
  ⟨⟨rfl, le_rfl,
      (C9_override_fallback (ParsedNumber.finite 0) 60000).2.1 0 rfl le_rfl⟩,
    ⟨by norm_num,
      (C9_override_fallback (ParsedNumber.finite 45000) 60000).2.2 45000 rfl
        (by norm_num)⟩⟩

/-- The Y-axis scale selector of the cumulative-cost variant. -/
inductive ScaleMode where
  | linear : ScaleMode
  | log : ScaleMode
  deriving Repr, DecidableEq

/-- One point of the cumulative-cost series (`YearPoint` of the
cumulative-cost variant): the running totals after period `year`. -/
structure CumPoint where
  year : ℕ
  cumUsd : ℚ
  cumBtc : ℚ
  deriving Repr, DecidableEq

/-- Loop state of the cumulative-cost projection (lines 346–365). -/
structure CumState where
  points : List CumPoint
  runningUsdTotal : ℚ
  runningBtcTotal : ℚ
  deriving Repr, DecidableEq

/-- Body of the cumulative-cost loop for iteration `k`
(lines 350–365 of the cumulative-cost variant). -/
def cumStep (i a E0 price : ℚ) (s : CumState) (k : ℕ) : CumState :=
  let expenseUsd := E0 * (1 + i) ^ k
  let btcPrice := price * (1 + a) ^ k
  let expenseBtc := expenseUsd / btcPrice
  let runningUsdTotal :=
    if 0 < k then s.runningUsdTotal + expenseUsd else s.runningUsdTotal
  let runningBtcTotal :=
    if 0 < k then s.runningBtcTotal + expenseBtc else s.runningBtcTotal
  { points := s.points ++
      [{ year := k, cumUsd := runningUsdTotal, cumBtc := runningBtcTotal }]
    runningUsdTotal := runningUsdTotal
    runningBtcTotal := runningBtcTotal }

/-- `Math.min` over a list with a default for the empty case, mirroring
`xs.length > 0 ? Math.min(...xs) : d`. -/
def listMin (d : ℚ) : List ℚ → ℚ
  | [] => d
  | x :: xs => xs.foldl min x

/-- The object returned by the cumulative-cost `useMemo`
(lines 338–381 of the cumulative-cost variant). -/
structure CumSummary where
  series : List CumPoint
  chartSeries : List CumPoint
  cumUsdAtT : ℚ
  cumBtcAtT : ℚ
  lifespanInflationFactor : ℚ
  minPositiveUsd : ℚ
  minPositiveBtc : ℚ
  deriving Repr, DecidableEq

/-- The cumulative-cost projection: run the loop for `k = 0..T`, trim the
year-0 point under log scale, and collect the summary. -/
def cumProjection (i a E0 price : ℚ) (T : ℕ) (mode : ScaleMode) : CumSummary :=
  let lif := ratioBase i a ^ T - 1
  let s := (List.range (T + 1)).foldl (cumStep i a E0 price) ⟨[], 0, 0⟩
  let trimmedPoints :=
    if mode = ScaleMode.log then s.points.filter (fun p => decide (0 < p.year))
    else s.points
  let usdPositives :=
    (trimmedPoints.map CumPoint.cumUsd).filter (fun v => decide (0 < v))
  let btcPositives :=
    (trimmedPoints.map CumPoint.cumBtc).filter (fun v => decide (0 < v))
  { series := s.points
    chartSeries := trimmedPoints
    cumUsdAtT := ((s.points.getLast?).map CumPoint.cumUsd).getD 0
    cumBtcAtT := ((s.points.getLast?).map CumPoint.cumBtc).getD 0
    lifespanInflationFactor := lif
    minPositiveUsd := listMin 1 usdPositives
    minPositiveBtc := listMin (1/1000000) btcPositives }

/-- Closed form of the cumulative USD total after period `k`. -/
def cumUsdAt (i E0 : ℚ) (k : ℕ) : ℚ :=
  ∑ j ∈ Finset.range (k + 1), if j = 0 then 0 else E0 * (1 + i) ^ j

/-- Closed form of the cumulative BTC total after period `k`. -/
def cumBtcAt (i a E0 price : ℚ) (k : ℕ) : ℚ :=
  ∑ j ∈ Finset.range (k + 1),
    if j = 0 then 0 else E0 * (1 + i) ^ j / (price * (1 + a) ^ j)

/-- Closed form of the cumulative-cost point pushed at iteration `k`. -/
def cumPointAt (i a E0 price : ℚ) (k : ℕ) : CumPoint :=
  { year := k, cumUsd := cumUsdAt i E0 k, cumBtc := cumBtcAt i a E0 price k }

/-- Closed form of the cumulative-cost loop state after `n` iterations. -/
def cumRun (i a E0 price : ℚ) (n : ℕ) : CumState :=
  { points := (List.range n).map (cumPointAt i a E0 price)
    runningUsdTotal := ∑ j ∈ Finset.range n, if j = 0 then 0 else E0 * (1 + i) ^ j
    runningBtcTotal :=
      ∑ j ∈ Finset.range n,
        if j = 0 then 0 else E0 * (1 + i) ^ j / (price * (1 + a) ^ j) }

/-- One step of the cumulative-cost loop advances the closed form. -/
theorem cumRun_succ (i a E0 price : ℚ) (n : ℕ) :
    cumStep i a E0 price (cumRun i a E0 price n) n =
      cumRun i a E0 price (n + 1) := by
  unfold cumStep cumRun
  simp only [CumState.mk.injEq]
  refine ⟨?_, ?_, ?_⟩
  · rw [List.range_succ, List.map_append]
    simp only [List.map_cons, List.map_nil, List.append_cancel_left_eq,
      List.cons.injEq, and_true]
    unfold cumPointAt cumUsdAt cumBtcAt
    rw [Finset.sum_range_succ, Finset.sum_range_succ]
    cases n with
    | zero => simp
    | succ m => simp
  · rw [Finset.sum_range_succ]
    cases n with
    | zero => simp
    | succ m => simp
  · rw [Finset.sum_range_succ]
    cases n with
    | zero => simp
    | succ m => simp

/-- Loop invariant for the cumulative-cost projection. -/
theorem cum_foldl (i a E0 price : ℚ) (n : ℕ) :
    (List.range n).foldl (cumStep i a E0 price) ⟨[], 0, 0⟩ =
      cumRun i a E0 price n := by
  induction n with
  | zero => simp [cumRun]
  | succ m ih =>
    rw [List.range_succ, List.foldl_append, ih]
    simp only [List.foldl_cons, List.foldl_nil]
    exact cumRun_succ i a E0 price m

/-- The cumulative-cost series is mode-independent and pointwise the
closed form. -/
theorem cumProjection_series (i a E0 price : ℚ) (T : ℕ) (mode : ScaleMode) :
    (cumProjection i a E0 price T mode).series =
      (List.range (T + 1)).map (cumPointAt i a E0 price) := by
  unfold cumProjection
  rw [cum_foldl]
  rfl

theorem cumProjection_chartSeries_linear (i a E0 price : ℚ) (T : ℕ) :
    (cumProjection i a E0 price T ScaleMode.linear).chartSeries =
      (List.range (T + 1)).map (cumPointAt i a E0 price) := by
  unfold cumProjection
  rw [cum_foldl]
  rfl

theorem cumProjection_chartSeries_log (i a E0 price : ℚ) (T : ℕ) :
    (cumProjection i a E0 price T ScaleMode.log).chartSeries =
      ((List.range (T + 1)).map (cumPointAt i a E0 price)).filter
        (fun p => decide (0 < p.year)) := by
  unfold cumProjection
  rw [cum_foldl]
  rfl

/-- Filtering out year 0 from the closed-form series is exactly dropping
its first point. -/
theorem cum_filter_pos_year (i a E0 price : ℚ) (T : ℕ) :
    ((List.range (T + 1)).map (cumPointAt i a E0 price)).filter
        (fun p => decide (0 < p.year)) =
      ((List.range (T + 1)).map (cumPointAt i a E0 price)).drop 1 := by
  rw [List.range_succ_eq_map]
  simp only [List.map_cons, List.filter_cons, List.drop_succ_cons, List.drop_zero]
  have h0 : (decide (0 < (cumPointAt i a E0 price 0).year)) = false := rfl
  rw [h0]
  simp only [Bool.false_eq_true, if_false]
  apply List.filter_eq_self.mpr
  intro x hx
  rw [List.map_map] at hx
  obtain ⟨j, _, rfl⟩ := List.mem_map.mp hx
  exact decide_eq_true (by exact Nat.succ_pos j)

theorem cumProjection_minUsd (i a E0 price : ℚ) (T : ℕ) (mode : ScaleMode) :
    (cumProjection i a E0 price T mode).minPositiveUsd =
      listMin 1
        (((cumProjection i a E0 price T mode).chartSeries.map CumPoint.cumUsd).filter
          (fun v => decide (0 < v))) := by
  unfold cumProjection
  rfl

theorem cumProjection_minBtc (i a E0 price : ℚ) (T : ℕ) (mode : ScaleMode) :
    (cumProjection i a E0 price T mode).minPositiveBtc =
      listMin (1/1000000)
        (((cumProjection i a E0 price T mode).chartSeries.map CumPoint.cumBtc).filter
          (fun v => decide (0 < v))) := by
  unfold cumProjection
  rfl

theorem cumUsdAt_zero (i E0 : ℚ) : cumUsdAt i E0 0 = 0 := by
  simp [cumUsdAt]

theorem cumBtcAt_zero (i a E0 price : ℚ) : cumBtcAt i a E0 price 0 = 0 := by
  simp [cumBtcAt]

/-- Dropping the year-0 point does not change the positive values of the
mapped series, because the year-0 cumulative value is `0`. -/
theorem cum_positives_eq (i a E0 price : ℚ) (T : ℕ) (f : CumPoint → ℚ)
    (hf : f (cumPointAt i a E0 price 0) = 0) :
    ((((List.range (T + 1)).map (cumPointAt i a E0 price)).drop 1).map f).filter
        (fun v => decide (0 < v)) =
      (((List.range (T + 1)).map (cumPointAt i a E0 price)).map f).filter
        (fun v => decide (0 < v)) := by
  rw [List.range_succ_eq_map]
  simp only [List.map_cons, List.drop_succ_cons, List.drop_zero, List.filter_cons]
  rw [hf]
  have h0 : (decide ((0 : ℚ) < 0)) = false := decide_eq_false (lt_irrefl 0)
  rw [h0]
  simp

/-- C10: in the cumulative-cost variant, under `log` scale the plotted
chart series is the computed series with the year-0 point removed (so it
has `T` points, hence is empty when `T = 0`), under `linear` scale it is
the full `T+1`-point series, and the underlying series and every summary
value are identical under both modes. -/
theorem C10_log_scale_trims_year_zero (i a E0 price : ℚ) (T : ℕ) :
    (cumProjection i a E0 price T ScaleMode.log).chartSeries =
        ((cumProjection i a E0 price T ScaleMode.linear).series).drop 1 ∧
    (cumProjection i a E0 price T ScaleMode.log).chartSeries.length = T ∧
    (cumProjection i a E0 price T ScaleMode.linear).chartSeries =
        (cumProjection i a E0 price T ScaleMode.linear).series ∧
    (cumProjection i a E0 price T ScaleMode.linear).chartSeries.length = T + 1 ∧
    (cumProjection i a E0 price T ScaleMode.log).series =
        (cumProjection i a E0 price T ScaleMode.linear).series ∧
    (cumProjection i a E0 price T ScaleMode.log).cumUsdAtT =
        (cumProjection i a E0 price T ScaleMode.linear).cumUsdAtT ∧
    (cumProjection i a E0 price T ScaleMode.log).cumBtcAtT =
        (cumProjection i a E0 price T ScaleMode.linear).cumBtcAtT ∧
    (cumProjection i a E0 price T ScaleMode.log).lifespanInflationFactor =
        (cumProjection i a E0 price T ScaleMode.linear).lifespanInflationFactor ∧
    (cumProjection i a E0 price T ScaleMode.log).minPositiveUsd =
        (cumProjection i a E0 price T ScaleMode.linear).minPositiveUsd ∧
    (cumProjection i a E0 price T ScaleMode.log).minPositiveBtc =
        (cumProjection i a E0 price T ScaleMode.linear).minPositiveBtc := by
  have hlog : (cumProjection i a E0 price T ScaleMode.log).chartSeries =
      ((List.range (T + 1)).map (cumPointAt i a E0 price)).drop 1 := by
    rw [cumProjection_chartSeries_log, cum_filter_pos_year]
  refine ⟨?_, ?_, ?_, ?_, ?_, rfl, rfl, rfl, ?_, ?_⟩
  · rw [hlog, cumProjection_series]
  · rw [hlog, List.length_drop, List.length_map, List.length_range]
    omega
  · rw [cumProjection_chartSeries_linear, cumProjection_series]
  · rw [cumProjection_chartSeries_linear, List.length_map, List.length_range]
  · rw [cumProjection_series, cumProjection_series]
  · rw [cumProjection_minUsd, cumProjection_minUsd, hlog,
      cumProjection_chartSeries_linear,
      cum_positives_eq i a E0 price T CumPoint.cumUsd (cumUsdAt_zero i E0)]
  · rw [cumProjection_minBtc, cumProjection_minBtc, hlog,
      cumProjection_chartSeries_linear,
      cum_positives_eq i a E0 price T CumPoint.cumBtc (cumBtcAt_zero i a E0 price)]
